import Mathlib

/-!
Shallow embedding of the go-api-demo widget service (src/api.go).

The program is a single-file HTTP CRUD service over an in-memory
map from string ids to widgets.  We embed:

- the data model (`Widget`, the store as an association list with
  Go-map semantics: `mapLookup`, `mapInsert`, `mapErase`);
- the per-operation handlers (`WidgetHandler.list`, `.get`,
  `.create`, `.update`, `.delete`), each returning the HTTP
  response together with the store after the request;
- the method/path dispatcher `WidgetHandler.ServeHTTP`, including
  the id extraction `strings.Replace(path, "/widgets/", "", 1)`;
- the root handler `index`.

External effects are passed as explicit arguments: the JSON body
decode result is an `Except String Widget` (`Except.error e`
models a body on which `json.Decoder.Decode` fails with message
`e`); the `uuidgen` subprocess output is an `Except String String`
(`Except.ok raw` is its raw stdout, to which the code applies
`strings.TrimSpace`).  Response payloads are modelled structurally
by `ResponseBody` rather than as serialized JSON text.
-/

namespace GoApiDemo

/-- The `version` constant of src/api.go. -/
def version : String := "0.0.1"

/-- Error message used for 404 responses in src/api.go. -/
def notFoundMessage : String := "The requested resource could not be located."

/-- Error message used for 405 responses in src/api.go. -/
def methodNotAllowedMessage : String := "Method not allowed for this resource."

/-- The `Widget` struct: id, name, description. -/
structure Widget where
  ID : String
  Name : String
  Description : String
deriving DecidableEq, Repr

/-- The JSON payload of a response, modelled structurally:
`widgetBody w` is the object with key "widget", `listBody ws n` is the
object with keys "widgets" and "count", `errorBody m` is the object with
key "error", and `indexBody ts v` is the root payload with keys
"timestamp" and "version". -/
inductive ResponseBody where
  | widgetBody : Widget → ResponseBody
  | listBody : List Widget → Nat → ResponseBody
  | errorBody : String → ResponseBody
  | indexBody : String → String → ResponseBody
deriving DecidableEq, Repr

/-- An HTTP response: status code and JSON payload. -/
structure Response where
  status : Nat
  body : ResponseBody
deriving DecidableEq, Repr

/-- The store `map[string]Widget`, as an association list.  The Go map
operations below keep keys unique. -/
abbrev Store := List (String × Widget)

/-- Go map read `h.widgets[id]` with its ok flag, as an `Option`. -/
def mapLookup : Store → String → Option Widget
  | [], _ => none
  | p :: rest, k => if p.1 = k then some p.2 else mapLookup rest k

/-- Go map write `h.widgets[k] = v`: replaces the entry for `k` when
present, else adds one. -/
def mapInsert : Store → String → Widget → Store
  | [], k, v => [(k, v)]
  | p :: rest, k, v => if p.1 = k then (k, v) :: rest else p :: mapInsert rest k v

/-- Go `delete(h.widgets, k)`: removes the entry for `k`. -/
def mapErase : Store → String → Store
  | [], _ => []
  | p :: rest, k => if p.1 = k then mapErase rest k else p :: mapErase rest k

/-- Go `strings.TrimSpace` on the (ASCII) output of uuidgen: whitespace
test for a character. -/
def goIsSpace (c : Char) : Bool :=
  c = ' ' || c = '\t' || c = '\n' || c = '\x0b' || c = '\x0c' || c = '\r'

/-- Go `strings.TrimSpace`: drop leading and trailing whitespace. -/
def trimSpace (s : String) : String :=
  ⟨((s.data.dropWhile goIsSpace).reverse.dropWhile goIsSpace).reverse⟩

/-- Go `strings.Replace(s, pat, "", 1)` on character lists: remove the
first occurrence of `pat`, scanning left to right. -/
def stripOnce : List Char → List Char → List Char
  | [], _ => []
  | c :: rest, pat =>
    if (c :: rest).take pat.length = pat then (c :: rest).drop pat.length
    else c :: stripOnce rest pat

/-- The id extraction of `ServeHTTP`:
`strings.Replace(path, "/widgets/", "", 1)`. -/
def widgetId (path : String) : String :=
  ⟨stripOnce path.data "/widgets/".data⟩

namespace WidgetHandler

/-- `WidgetHandler.list`: collect all widgets of the map into an array
and respond 200 with the array and its count.  The store is unchanged. -/
def list (s : Store) : Response × Store :=
  let widgets := s.map (fun p => p.2)
  (⟨200, .listBody widgets widgets.length⟩, s)

/-- `WidgetHandler.get`: respond 200 with the widget when the id is in
the map, else 404.  The store is unchanged. -/
def get (s : Store) (id : String) : Response × Store :=
  match mapLookup s id with
  | none => (⟨404, .errorBody notFoundMessage⟩, s)
  | some widget => (⟨200, .widgetBody widget⟩, s)

/-- `WidgetHandler.create`: decode the body (400 on failure), run
uuidgen (500 on failure), overwrite the decoded widget id with the
trimmed uuid, insert it into the map, respond 201 with the widget. -/
def create (s : Store) (body : Except String Widget)
    (uuidOut : Except String String) : Response × Store :=
  match body with
  | .error e => (⟨400, .errorBody e⟩, s)
  | .ok widget =>
    match uuidOut with
    | .error e => (⟨500, .errorBody e⟩, s)
    | .ok raw =>
      let widget := { widget with ID := trimSpace raw }
      (⟨201, .widgetBody widget⟩, mapInsert s widget.ID widget)

/-- `WidgetHandler.update`: 404 when the id is not in the map; then
decode the body (400 on failure); overwrite name and description of the
stored widget, write it back under its own id, respond 200 with it. -/
def update (s : Store) (id : String) (body : Except String Widget) :
    Response × Store :=
  match mapLookup s id with
  | none => (⟨404, .errorBody notFoundMessage⟩, s)
  | some widget =>
    match body with
    | .error e => (⟨400, .errorBody e⟩, s)
    | .ok updWidget =>
      let widget := { widget with Name := updWidget.Name,
                                  Description := updWidget.Description }
      (⟨200, .widgetBody widget⟩, mapInsert s widget.ID widget)

/-- `WidgetHandler.delete`: 404 when the id is not in the map; else
remove it and respond 200 with the just-removed widget. -/
def delete (s : Store) (id : String) : Response × Store :=
  match mapLookup s id with
  | none => (⟨404, .errorBody notFoundMessage⟩, s)
  | some widget => (⟨200, .widgetBody widget⟩, mapErase s id)

/-- The method switch of `WidgetHandler.ServeHTTP`, after the id has
been extracted from the path.  The `break` branches of the Go switch
fall through to the shared 405 response. -/
def serve (s : Store) (method id : String) (body : Except String Widget)
    (uuidOut : Except String String) : Response × Store :=
  if method = "GET" then
    if 0 < id.length then get s id else list s
  else if method = "POST" then
    if 0 < id.length then (⟨405, .errorBody methodNotAllowedMessage⟩, s)
    else create s body uuidOut
  else if method = "PUT" then
    if id.length ≤ 0 then (⟨405, .errorBody methodNotAllowedMessage⟩, s)
    else update s id body
  else if method = "DELETE" then
    if id.length ≤ 0 then (⟨405, .errorBody methodNotAllowedMessage⟩, s)
    else delete s id
  else (⟨405, .errorBody methodNotAllowedMessage⟩, s)

/-- `WidgetHandler.ServeHTTP`: extract the id from the path and run the
method switch. -/
def ServeHTTP (s : Store) (method path : String)
    (body : Except String Widget) (uuidOut : Except String String) :
    Response × Store :=
  serve s method (widgetId path) body uuidOut

end WidgetHandler

/-- The root handler `index`.  `now` is the value of
`time.Now().String()`. -/
def index (path method now : String) : Response :=
  if path ≠ "/" then ⟨404, .errorBody notFoundMessage⟩
  else if method ≠ "OPTIONS" ∧ method ≠ "GET" then
    ⟨405, .errorBody methodNotAllowedMessage⟩
  else ⟨200, .indexBody now version⟩

/-- Store states reachable from the empty initial store by create,
update and delete requests.  A create step carries the decode result of
its body and the uuidgen outcome; uuidgen, modelled from the spec as a
UUID-style generator, yields a non-whitespace id, so a successful
output trims to a non-empty string. -/
inductive Reachable : Store → Prop where
  | empty : Reachable []
  | stepCreate (s : Store) (body : Except String Widget)
      (uuidOut : Except String String) (h : Reachable s)
      (hgen : ∀ u, uuidOut = Except.ok u → trimSpace u ≠ "") :
      Reachable (WidgetHandler.create s body uuidOut).2
  | stepUpdate (s : Store) (id : String) (body : Except String Widget)
      (h : Reachable s) : Reachable (WidgetHandler.update s id body).2
  | stepDelete (s : Store) (id : String) (h : Reachable s) :
      Reachable (WidgetHandler.delete s id).2

/-- The store invariant: map keys are unique, every key is non-empty,
and every stored widget carries its own map key as its id. -/
def storeInv (s : Store) : Prop :=
  (s.map (fun p => p.1)).Nodup ∧ ∀ p ∈ s, p.1 ≠ "" ∧ p.2.ID = p.1

theorem mapLookup_some_mem {s : Store} {k : String} {v : Widget}
    (h : mapLookup s k = some v) : (k, v) ∈ s := by
  induction s with
  | nil => simp [mapLookup] at h
  | cons p rest ih =>
    rw [mapLookup] at h
    split at h
    next hp =>
      injection h with hv
      obtain ⟨a, w⟩ := p
      rcases hp
      rcases hv
      exact List.mem_cons_self _ _
    next hp => exact List.mem_cons_of_mem _ (ih h)

theorem mem_mapInsert {s : Store} {k : String} {v : Widget} {p : String × Widget}
    (h : p ∈ mapInsert s k v) : p = (k, v) ∨ p ∈ s := by
  induction s with
  | nil =>
    simp [mapInsert] at h
    left
    exact h
  | cons q rest ih =>
    rw [mapInsert] at h
    split at h
    · rcases List.mem_cons.mp h with h1 | h1
      · left
        exact h1
      · right
        exact List.mem_cons_of_mem _ h1
    · rcases List.mem_cons.mp h with h1 | h1
      · right
        exact h1 ▸ List.mem_cons_self _ _
      · rcases ih h1 with h2 | h2
        · left
          exact h2
        · right
          exact List.mem_cons_of_mem _ h2

theorem mem_keys_mapInsert {s : Store} {k x : String} {v : Widget}
    (h : x ∈ (mapInsert s k v).map (fun p => p.1)) :
    x = k ∨ x ∈ s.map (fun p => p.1) := by
  rcases List.mem_map.mp h with ⟨p, hp, hx⟩
  rcases mem_mapInsert hp with h1 | h1
  · subst h1
    left
    exact hx.symm
  · right
    exact List.mem_map.mpr ⟨p, h1, hx⟩

theorem nodupKeys_mapInsert {s : Store} {k : String} {v : Widget}
    (h : (s.map (fun p => p.1)).Nodup) :
    ((mapInsert s k v).map (fun p => p.1)).Nodup := by
  induction s with
  | nil => simp [mapInsert]
  | cons q rest ih =>
    rw [List.map_cons, List.nodup_cons] at h
    rw [mapInsert]
    split
    next hq =>
      rw [List.map_cons, List.nodup_cons]
      refine ⟨?_, h.2⟩
      rw [← hq]
      exact h.1
    next hq =>
      rw [List.map_cons, List.nodup_cons]
      refine ⟨?_, ih h.2⟩
      intro hc
      rcases mem_keys_mapInsert hc with h1 | h1
      · exact hq h1
      · exact h.1 h1

theorem mapLookup_mapInsert_self (s : Store) (k : String) (v : Widget) :
    mapLookup (mapInsert s k v) k = some v := by
  induction s with
  | nil => simp [mapInsert, mapLookup]
  | cons q rest ih =>
    rw [mapInsert]
    split
    · rw [mapLookup, if_pos rfl]
    next hq =>
      rw [mapLookup, if_neg hq]
      exact ih

theorem mapLookup_mapInsert_ne (s : Store) {k kq : String} (v : Widget)
    (hne : kq ≠ k) : mapLookup (mapInsert s k v) kq = mapLookup s kq := by
  induction s with
  | nil =>
    show (if k = kq then some v else mapLookup [] kq) = mapLookup [] kq
    rw [if_neg (fun hc => hne hc.symm)]
  | cons q rest ih =>
    rw [mapInsert]
    split
    next hq =>
      show (if k = kq then some v else mapLookup rest kq) = mapLookup (q :: rest) kq
      rw [mapLookup, if_neg (fun hc => hne hc.symm),
        if_neg (fun hc : q.1 = kq => hne (hc.symm.trans hq))]
    next hq =>
      rw [mapLookup, mapLookup]
      by_cases hqk : q.1 = kq
      · rw [if_pos hqk, if_pos hqk]
      · rw [if_neg hqk, if_neg hqk]
        exact ih

theorem mapLookup_mapErase_self (s : Store) (k : String) :
    mapLookup (mapErase s k) k = none := by
  induction s with
  | nil => rfl
  | cons q rest ih =>
    rw [mapErase]
    split
    · exact ih
    next hq =>
      rw [mapLookup, if_neg hq]
      exact ih

theorem mapErase_sublist (s : Store) (k : String) :
    List.Sublist (mapErase s k) s := by
  induction s with
  | nil => simp [mapErase]
  | cons q rest ih =>
    rw [mapErase]
    split
    · exact ih.cons q
    · exact ih.cons₂ q

theorem mem_mapErase {s : Store} {k : String} {p : String × Widget}
    (h : p ∈ mapErase s k) : p ∈ s :=
  (mapErase_sublist s k).subset h

theorem stripOnce_append (pat rest : List Char) (hp : pat ≠ []) :
    stripOnce (pat ++ rest) pat = rest := by
  match pat, hp with
  | c :: cs, _ =>
    have htake : ((c :: cs) ++ rest).take (c :: cs).length = c :: cs :=
      List.take_left _ _
    have hdrop : ((c :: cs) ++ rest).drop (c :: cs).length = rest :=
      List.drop_left _ _
    simp only [List.cons_append] at htake hdrop ⊢
    rw [stripOnce, if_pos htake, hdrop]

theorem widgetId_append (id : String) : widgetId ("/widgets/" ++ id) = id := by
  obtain ⟨l⟩ := id
  show String.mk (stripOnce ("/widgets/" ++ String.mk l).data "/widgets/".data) =
    String.mk l
  have hd : ("/widgets/" ++ String.mk l).data = "/widgets/".data ++ l := rfl
  rw [hd, stripOnce_append _ _ (by decide)]

theorem length_pos_of_ne_empty (s : String) (h : s ≠ "") : 0 < s.length := by
  obtain ⟨l⟩ := s
  cases l with
  | nil => exact absurd rfl h
  | cons c cs => simp [String.length]

theorem get_of_lookup_none {s : Store} {id : String}
    (h : mapLookup s id = none) :
    WidgetHandler.get s id = (⟨404, .errorBody notFoundMessage⟩, s) := by
  unfold WidgetHandler.get
  rw [h]

theorem get_of_lookup_some {s : Store} {id : String} {w : Widget}
    (h : mapLookup s id = some w) :
    WidgetHandler.get s id = (⟨200, .widgetBody w⟩, s) := by
  unfold WidgetHandler.get
  rw [h]

theorem update_of_lookup_none {s : Store} {id : String}
    (body : Except String Widget) (h : mapLookup s id = none) :
    WidgetHandler.update s id body = (⟨404, .errorBody notFoundMessage⟩, s) := by
  unfold WidgetHandler.update
  rw [h]

theorem update_of_lookup_some_error {s : Store} {id : String} {w : Widget}
    (e : String) (h : mapLookup s id = some w) :
    WidgetHandler.update s id (.error e) = (⟨400, .errorBody e⟩, s) := by
  unfold WidgetHandler.update
  rw [h]

theorem update_of_lookup_some_ok {s : Store} {id : String} {w : Widget}
    (upd : Widget) (h : mapLookup s id = some w) :
    WidgetHandler.update s id (.ok upd) =
      (⟨200, .widgetBody ⟨w.ID, upd.Name, upd.Description⟩⟩,
        mapInsert s w.ID ⟨w.ID, upd.Name, upd.Description⟩) := by
  unfold WidgetHandler.update
  rw [h]

theorem delete_of_lookup_none {s : Store} {id : String}
    (h : mapLookup s id = none) :
    WidgetHandler.delete s id = (⟨404, .errorBody notFoundMessage⟩, s) := by
  unfold WidgetHandler.delete
  rw [h]

theorem delete_of_lookup_some {s : Store} {id : String} {w : Widget}
    (h : mapLookup s id = some w) :
    WidgetHandler.delete s id = (⟨200, .widgetBody w⟩, mapErase s id) := by
  unfold WidgetHandler.delete
  rw [h]

/-- C1: with id the path remainder after the /widgets/ prefix, GET with
empty id invokes list, GET with non-empty id invokes get-by-id, POST
with empty id invokes create and POST with non-empty id returns 405,
PUT with non-empty id invokes update and PUT with empty id returns 405,
DELETE with non-empty id invokes delete and DELETE with empty id
returns 405, and every other method returns 405. -/
theorem serveHTTP_dispatch :
    (∀ s body uuidOut, WidgetHandler.ServeHTTP s "GET" "/widgets/" body uuidOut =
      WidgetHandler.list s) ∧
    (∀ s id body uuidOut, id ≠ "" →
      WidgetHandler.ServeHTTP s "GET" ("/widgets/" ++ id) body uuidOut =
        WidgetHandler.get s id) ∧
    (∀ s body uuidOut, WidgetHandler.ServeHTTP s "POST" "/widgets/" body uuidOut =
      WidgetHandler.create s body uuidOut) ∧
    (∀ s id body uuidOut, id ≠ "" →
      WidgetHandler.ServeHTTP s "POST" ("/widgets/" ++ id) body uuidOut =
        (⟨405, .errorBody methodNotAllowedMessage⟩, s)) ∧
    (∀ s id body uuidOut, id ≠ "" →
      WidgetHandler.ServeHTTP s "PUT" ("/widgets/" ++ id) body uuidOut =
        WidgetHandler.update s id body) ∧
    (∀ s body uuidOut, WidgetHandler.ServeHTTP s "PUT" "/widgets/" body uuidOut =
      (⟨405, .errorBody methodNotAllowedMessage⟩, s)) ∧
    (∀ s id body uuidOut, id ≠ "" →
      WidgetHandler.ServeHTTP s "DELETE" ("/widgets/" ++ id) body uuidOut =
        WidgetHandler.delete s id) ∧
    (∀ s body uuidOut, WidgetHandler.ServeHTTP s "DELETE" "/widgets/" body uuidOut =
      (⟨405, .errorBody methodNotAllowedMessage⟩, s)) ∧
    (∀ s method id body uuidOut, method ≠ "GET" → method ≠ "POST" →
      method ≠ "PUT" → method ≠ "DELETE" →
      WidgetHandler.ServeHTTP s method ("/widgets/" ++ id) body uuidOut =
        (⟨405, .errorBody methodNotAllowedMessage⟩, s)) := by
  have h0 : widgetId "/widgets/" = "" := by decide
  refine ⟨?_, ?_, ?_, ?_, ?_, ?_, ?_, ?_, ?_⟩
  · intro s body uuidOut
    rw [WidgetHandler.ServeHTTP, h0, WidgetHandler.serve, if_pos rfl,
      if_neg (by decide)]
  · intro s id body uuidOut hne
    have hlen := length_pos_of_ne_empty id hne
    rw [WidgetHandler.ServeHTTP, widgetId_append, WidgetHandler.serve,
      if_pos rfl, if_pos hlen]
  · intro s body uuidOut
    rw [WidgetHandler.ServeHTTP, h0, WidgetHandler.serve, if_neg (by decide),
      if_pos rfl, if_neg (by decide)]
  · intro s id body uuidOut hne
    have hlen := length_pos_of_ne_empty id hne
    rw [WidgetHandler.ServeHTTP, widgetId_append, WidgetHandler.serve,
      if_neg (by decide), if_pos rfl, if_pos hlen]
  · intro s id body uuidOut hne
    have hlen := length_pos_of_ne_empty id hne
    rw [WidgetHandler.ServeHTTP, widgetId_append, WidgetHandler.serve,
      if_neg (by decide), if_neg (by decide), if_pos rfl, if_neg (by omega)]
  · intro s body uuidOut
    rw [WidgetHandler.ServeHTTP, h0, WidgetHandler.serve, if_neg (by decide),
      if_neg (by decide), if_pos rfl, if_pos (by decide)]
  · intro s id body uuidOut hne
    have hlen := length_pos_of_ne_empty id hne
    rw [WidgetHandler.ServeHTTP, widgetId_append, WidgetHandler.serve,
      if_neg (by decide), if_neg (by decide), if_neg (by decide), if_pos rfl,
      if_neg (by omega)]
  · intro s body uuidOut
    rw [WidgetHandler.ServeHTTP, h0, WidgetHandler.serve, if_neg (by decide),
      if_neg (by decide), if_neg (by decide), if_pos rfl, if_pos (by decide)]
  · intro s method id body uuidOut h1 h2 h3 h4
    rw [WidgetHandler.ServeHTTP, widgetId_append, WidgetHandler.serve,
      if_neg h1, if_neg h2, if_neg h3, if_neg h4]

theorem serveHTTP_dispatch_witness :
    WidgetHandler.ServeHTTP [] "PATCH" ("/widgets/" ++ "w1")
      (Except.error "bad") (Except.ok "u") =
      (⟨405, .errorBody methodNotAllowedMessage⟩, []) :=
  serveHTTP_dispatch.2.2.2.2.2.2.2.2 [] "PATCH" "w1" (Except.error "bad")
    (Except.ok "u") (by decide) (by decide) (by decide) (by decide)

/-- C9: the root handler returns 404 on any path other than "/",
returns 405 on "/" for any method other than GET and OPTIONS, and
otherwise returns 200 with a timestamp and the version string. -/
theorem index_spec :
    (∀ path method now, path ≠ "/" →
      index path method now = ⟨404, .errorBody notFoundMessage⟩) ∧
    (∀ method now, method ≠ "GET" → method ≠ "OPTIONS" →
      index "/" method now = ⟨405, .errorBody methodNotAllowedMessage⟩) ∧
    (∀ now, index "/" "GET" now = ⟨200, .indexBody now version⟩) ∧
    (∀ now, index "/" "OPTIONS" now = ⟨200, .indexBody now version⟩) := by
  refine ⟨?_, ?_, ?_, ?_⟩
  · intro path method now h
    rw [index, if_pos h]
  · intro method now h1 h2
    rw [index, if_neg (by decide), if_pos ⟨h2, h1⟩]
  · intro now
    rw [index, if_neg (by decide), if_neg (by simp)]
  · intro now
    rw [index, if_neg (by decide), if_neg (by simp)]

theorem index_spec_witness :
    index "/other" "GET" "ts" = ⟨404, .errorBody notFoundMessage⟩ :=
  index_spec.1 "/other" "GET" "ts" (by decide)

/-- C2: a create whose body decodes to widget w and whose uuidgen call
succeeds with output raw responds 201 with a widget whose name and
description are those of w, whose id is the trimmed generated uuid
(non-empty; the id supplied in w is ignored, since w.ID does not occur
in the result), and a get-by-id on that id against the new store
returns 200 with the same widget. -/
theorem create_then_get (s : Store) (w : Widget) (raw : String)
    (hne : trimSpace raw ≠ "") :
    (WidgetHandler.create s (.ok w) (.ok raw)).1 =
      ⟨201, .widgetBody ⟨trimSpace raw, w.Name, w.Description⟩⟩ ∧
    trimSpace raw ≠ "" ∧
    WidgetHandler.get (WidgetHandler.create s (.ok w) (.ok raw)).2
        (trimSpace raw) =
      (⟨200, .widgetBody ⟨trimSpace raw, w.Name, w.Description⟩⟩,
        (WidgetHandler.create s (.ok w) (.ok raw)).2) := by
  refine ⟨rfl, hne, ?_⟩
  exact get_of_lookup_some (mapLookup_mapInsert_self s (trimSpace raw) _)

theorem create_then_get_witness :
    (WidgetHandler.create [] (.ok ⟨"client-id", "a", "b"⟩) (.ok "u-1\n")).1 =
      ⟨201, .widgetBody ⟨trimSpace "u-1\n", "a", "b"⟩⟩ ∧
    trimSpace "u-1\n" ≠ "" ∧
    WidgetHandler.get
        (WidgetHandler.create [] (.ok ⟨"client-id", "a", "b"⟩) (.ok "u-1\n")).2
        (trimSpace "u-1\n") =
      (⟨200, .widgetBody ⟨trimSpace "u-1\n", "a", "b"⟩⟩,
        (WidgetHandler.create [] (.ok ⟨"client-id", "a", "b"⟩) (.ok "u-1\n")).2) :=
  create_then_get [] ⟨"client-id", "a", "b"⟩ "u-1\n" (by decide)

/-- C4: a create whose body fails to decode responds 400 and leaves the
store unchanged, and an update of an id present in the store whose body
fails to decode responds 400 and leaves the store unchanged. -/
theorem malformed_body_400 (s : Store) (e : String)
    (uuidOut : Except String String) :
    (WidgetHandler.create s (.error e) uuidOut = (⟨400, .errorBody e⟩, s)) ∧
    (∀ id w, mapLookup s id = some w →
      WidgetHandler.update s id (.error e) = (⟨400, .errorBody e⟩, s)) := by
  refine ⟨rfl, ?_⟩
  intro id w h
  exact update_of_lookup_some_error e h

theorem malformed_body_400_witness :
    (WidgetHandler.create [] (.error "bad json") (.ok "u") =
      (⟨400, .errorBody "bad json"⟩, [])) ∧
    (WidgetHandler.update [("a", ⟨"a", "n", "d"⟩)] "a" (.error "bad json") =
      (⟨400, .errorBody "bad json"⟩, [("a", ⟨"a", "n", "d"⟩)])) :=
  ⟨(malformed_body_400 [] "bad json" (.ok "u")).1,
    (malformed_body_400 [("a", ⟨"a", "n", "d"⟩)] "bad json" (.ok "u")).2
      "a" ⟨"a", "n", "d"⟩ (by decide)⟩

/-- C5: an update whose id is not a key of the store responds 404 and
leaves the store unchanged, whatever the body. -/
theorem update_not_found (s : Store) (id : String)
    (body : Except String Widget) (h : mapLookup s id = none) :
    WidgetHandler.update s id body =
      (⟨404, .errorBody notFoundMessage⟩, s) :=
  update_of_lookup_none body h

theorem update_not_found_witness :
    WidgetHandler.update [] "x" (.ok ⟨"", "n", "d"⟩) =
      (⟨404, .errorBody notFoundMessage⟩, []) :=
  update_not_found [] "x" (.ok ⟨"", "n", "d"⟩) rfl

/-- C6: an update of an id present in the store with a decoded body upd
responds 200, overwrites the stored name and description with those of
upd while the stored id stays the map key (even though upd may carry a
different id), and leaves every other key of the store unchanged.  The
hypothesis that the stored widget carries its key as id is the store
invariant established for all reachable stores. -/
theorem update_existing (s : Store) (id : String) (w upd : Widget)
    (hl : mapLookup s id = some w) (hid : w.ID = id) :
    WidgetHandler.update s id (.ok upd) =
      (⟨200, .widgetBody ⟨id, upd.Name, upd.Description⟩⟩,
        mapInsert s id ⟨id, upd.Name, upd.Description⟩) ∧
    mapLookup (WidgetHandler.update s id (.ok upd)).2 id =
      some ⟨id, upd.Name, upd.Description⟩ ∧
    (∀ k, k ≠ id →
      mapLookup (WidgetHandler.update s id (.ok upd)).2 k = mapLookup s k) := by
  have h1 := update_of_lookup_some_ok upd hl
  rw [hid] at h1
  refine ⟨h1, ?_, ?_⟩
  · rw [h1]
    exact mapLookup_mapInsert_self s id _
  · intro k hk
    rw [h1]
    exact mapLookup_mapInsert_ne s _ hk

theorem update_existing_witness :
    (WidgetHandler.update [("a", ⟨"a", "n", "d"⟩)] "a"
        (.ok ⟨"zzz", "n2", "d2"⟩) =
      (⟨200, .widgetBody ⟨"a", "n2", "d2"⟩⟩,
        mapInsert [("a", ⟨"a", "n", "d"⟩)] "a" ⟨"a", "n2", "d2"⟩)) ∧
    (mapLookup (WidgetHandler.update [("a", ⟨"a", "n", "d"⟩)] "a"
        (.ok ⟨"zzz", "n2", "d2"⟩)).2 "b" =
      mapLookup [("a", ⟨"a", "n", "d"⟩)] "b") :=
  ⟨(update_existing [("a", ⟨"a", "n", "d"⟩)] "a" ⟨"a", "n", "d"⟩
      ⟨"zzz", "n2", "d2"⟩ (by decide) rfl).1,
    (update_existing [("a", ⟨"a", "n", "d"⟩)] "a" ⟨"a", "n", "d"⟩
      ⟨"zzz", "n2", "d2"⟩ (by decide) rfl).2.2 "b" (by decide)⟩

/-- C7: a delete of an id absent from the store responds 404 and leaves
the store unchanged; a delete of a present id responds 200 with the
widget stored just before removal, removes the key, after which a
get-by-id on that id responds 404 and a second delete responds 404 and
leaves the store unchanged. -/
theorem delete_spec (s : Store) (id : String) :
    (mapLookup s id = none →
      WidgetHandler.delete s id = (⟨404, .errorBody notFoundMessage⟩, s)) ∧
    (∀ w, mapLookup s id = some w →
      (WidgetHandler.delete s id).1 = ⟨200, .widgetBody w⟩ ∧
      mapLookup (WidgetHandler.delete s id).2 id = none ∧
      WidgetHandler.get (WidgetHandler.delete s id).2 id =
        (⟨404, .errorBody notFoundMessage⟩, (WidgetHandler.delete s id).2) ∧
      WidgetHandler.delete (WidgetHandler.delete s id).2 id =
        (⟨404, .errorBody notFoundMessage⟩, (WidgetHandler.delete s id).2)) := by
  refine ⟨fun h => delete_of_lookup_none h, ?_⟩
  intro w h
  have h1 := delete_of_lookup_some h
  have h2 : mapLookup (WidgetHandler.delete s id).2 id = none := by
    rw [h1]
    exact mapLookup_mapErase_self s id
  exact ⟨by rw [h1], h2, get_of_lookup_none h2, delete_of_lookup_none h2⟩

theorem delete_spec_witness :
    (WidgetHandler.delete [("a", ⟨"a", "n", "d"⟩)] "x" =
      (⟨404, .errorBody notFoundMessage⟩, [("a", ⟨"a", "n", "d"⟩)])) ∧
    ((WidgetHandler.delete [("a", ⟨"a", "n", "d"⟩)] "a").1 =
      ⟨200, .widgetBody ⟨"a", "n", "d"⟩⟩) ∧
    (mapLookup (WidgetHandler.delete [("a", ⟨"a", "n", "d"⟩)] "a").2 "a" =
      none) :=
  ⟨(delete_spec [("a", ⟨"a", "n", "d"⟩)] "x").1 (by decide),
    ((delete_spec [("a", ⟨"a", "n", "d"⟩)] "a").2 ⟨"a", "n", "d"⟩ (by decide)).1,
    ((delete_spec [("a", ⟨"a", "n", "d"⟩)] "a").2 ⟨"a", "n", "d"⟩
      (by decide)).2.1⟩

/-- C8: the list operation always responds 200 with the widgets of the
store and a count equal to the number of widgets in the store, the
widgets of the response are exactly the widgets of the store, the store
is unchanged, and the empty store yields an empty array and count 0. -/
theorem list_spec (s : Store) :
    (WidgetHandler.list s).1.status = 200 ∧
    (WidgetHandler.list s).1.body =
      .listBody (s.map (fun p => p.2)) s.length ∧
    (∀ w, w ∈ s.map (fun p => p.2) ↔ ∃ k, (k, w) ∈ s) ∧
    (WidgetHandler.list s).2 = s ∧
    WidgetHandler.list [] = (⟨200, .listBody [] 0⟩, []) := by
  refine ⟨rfl, ?_, ?_, rfl, rfl⟩
  · show ResponseBody.listBody (s.map (fun p => p.2)) (s.map (fun p => p.2)).length =
      .listBody (s.map (fun p => p.2)) s.length
    rw [List.length_map]
  · intro w
    constructor
    · intro h
      rcases List.mem_map.mp h with ⟨p, hp, he⟩
      exact ⟨p.1, by rwa [show (p.1, w) = p from Prod.ext rfl he.symm]⟩
    · intro ⟨k, hk⟩
      exact List.mem_map.mpr ⟨(k, w), hk, rfl⟩

/-- C10: an update whose id is absent from the store responds 404 with
the store unchanged even when the body is malformed (the not-found
check precedes body decoding), and the result of such an update does
not depend on the body at all. -/
theorem update_not_found_before_decode (s : Store) (id : String) (e : String)
    (h : mapLookup s id = none) :
    (WidgetHandler.update s id (.error e)).1.status = 404 ∧
    (WidgetHandler.update s id (.error e)).1.status ≠ 400 ∧
    (WidgetHandler.update s id (.error e)).2 = s ∧
    (∀ b₁ b₂ : Except String Widget,
      WidgetHandler.update s id b₁ = WidgetHandler.update s id b₂) := by
  rw [update_of_lookup_none (.error e) h]
  refine ⟨rfl, show (404 : Nat) ≠ 400 by decide, rfl, ?_⟩
  intro b₁ b₂
  rw [update_of_lookup_none b₁ h, update_of_lookup_none b₂ h]

theorem update_not_found_before_decode_witness :
    ((WidgetHandler.update [] "x" (.error "bad json")).1.status = 404 ∧
      (WidgetHandler.update [] "x" (.error "bad json")).1.status ≠ 400 ∧
      (WidgetHandler.update [] "x" (.error "bad json")).2 = ([] : Store) ∧
      (∀ b₁ b₂ : Except String Widget,
        WidgetHandler.update [] "x" b₁ = WidgetHandler.update [] "x" b₂)) :=
  update_not_found_before_decode [] "x" "bad json" rfl

theorem storeInv_insert {s : Store} {k : String} {v : Widget}
    (hs : storeInv s) (hk : k ≠ "") (hv : v.ID = k) :
    storeInv (mapInsert s k v) := by
  constructor
  · exact nodupKeys_mapInsert hs.1
  · intro p hp
    rcases mem_mapInsert hp with h | h
    · subst h
      exact ⟨hk, hv⟩
    · exact hs.2 p h

theorem storeInv_erase {s : Store} {k : String} (hs : storeInv s) :
    storeInv (mapErase s k) := by
  constructor
  · exact hs.1.sublist ((mapErase_sublist s k).map (fun p => p.1))
  · intro p hp
    exact hs.2 p (mem_mapErase hp)

/-- C3: every store reachable from the empty store by create, update
and delete requests (with uuidgen yielding ids that trim to non-empty
strings) satisfies the store invariant: keys are unique, every stored
widget carries its map key as its id, that id is non-empty, and hence
the stored ids are pairwise distinct. -/
theorem reachable_storeInv (s : Store) (h : Reachable s) :
    storeInv s ∧ (s.map (fun p => p.2.ID)).Nodup := by
  have main : storeInv s := by
    induction h with
    | empty => exact ⟨List.nodup_nil, by simp⟩
    | stepCreate s body uuidOut h hgen ih =>
      cases body with
      | error e => exact ih
      | ok w =>
        cases uuidOut with
        | error e => exact ih
        | ok raw => exact storeInv_insert ih (hgen raw rfl) rfl
    | stepUpdate s id body h ih =>
      cases hl : mapLookup s id with
      | none =>
        rw [update_of_lookup_none body hl]
        exact ih
      | some w =>
        cases body with
        | error e =>
          rw [update_of_lookup_some_error e hl]
          exact ih
        | ok upd =>
          rw [update_of_lookup_some_ok upd hl]
          have h2 := ih.2 _ (mapLookup_some_mem hl)
          refine storeInv_insert ih ?_ rfl
          rw [h2.2]
          exact h2.1
    | stepDelete s id h ih =>
      cases hl : mapLookup s id with
      | none =>
        rw [delete_of_lookup_none hl]
        exact ih
      | some w =>
        rw [delete_of_lookup_some hl]
        exact storeInv_erase ih
  refine ⟨main, ?_⟩
  have he : s.map (fun p => p.2.ID) = s.map (fun p => p.1) :=
    List.map_congr_left (fun p hp => (main.2 p hp).2)
  rw [he]
  exact main.1

theorem reachable_storeInv_witness :
    storeInv (WidgetHandler.create [] (.ok ⟨"", "a", "b"⟩) (.ok "u-1\n")).2 ∧
    (((WidgetHandler.create [] (.ok ⟨"", "a", "b"⟩) (.ok "u-1\n")).2).map
      (fun p => p.2.ID)).Nodup :=
  reachable_storeInv _ (Reachable.stepCreate [] _ _ Reachable.empty
    (fun u hu => by
      injection hu with h2
      rw [← h2]
      decide))

end GoApiDemo
